import Mathlib

/-!
Verification of the clara mention-processing core against its specification.

The definitions below are a shallow embedding of the Rust sources:
`src/twitter.rs` (rate limiter and mention filter), `src/utils.rs`
(TTL cache), `src/main.rs` (per-mention pipeline `handle_mention`),
`src/story.rs` (`format_story`) and `src/image.rs` (`generate_cat_image`,
`validate_image`).  Machine clocks (`tokio::time::Instant`,
`std::time::SystemTime`) are modelled as natural numbers of seconds;
`Instant::duration_since` and Nat subtraction are both saturating, so
`now - earlier` matches the Rust semantics.  Strings handled at the byte
level in Rust are modelled as `List Char` together with an explicit
UTF-8 byte-length function.
-/

namespace Clara

/-! ## Rate limiter (src/twitter.rs lines 84-106) -/

/-- `MAX_REQUESTS_PER_DAY` from src/twitter.rs line 10. -/
def MAX_REQUESTS_PER_DAY : Nat := 3

/-- `RATE_LIMIT_HOURS * 3600` seconds, the window length from src/twitter.rs
lines 11 and 94. -/
def RATE_LIMIT_SECS : Nat := 24 * 3600

/-- Per-actor rate-limit record, `struct RateLimit` in src/twitter.rs. -/
structure RateLimit where
  count : Nat
  last_reset : Nat
deriving DecidableEq, Repr

namespace TwitterHandler

/-- The window-reset step of `check_rate_limit` (src/twitter.rs lines 94-97):
if at least the window length elapsed since `last_reset`, reset the count to
0 and the window start to `now`. -/
def rlReset (now : Nat) (r : RateLimit) : RateLimit :=
  if RATE_LIMIT_SECS ≤ now - r.last_reset then ⟨0, now⟩ else r

/-- The consume step of `check_rate_limit` (src/twitter.rs lines 99-105):
deny without incrementing when the count reached `MAX_REQUESTS_PER_DAY`,
otherwise increment and admit. -/
def rlConsume (r : RateLimit) : Bool × RateLimit :=
  if MAX_REQUESTS_PER_DAY ≤ r.count then (false, r)
  else (true, ⟨r.count + 1, r.last_reset⟩)

/-- `TwitterHandler::check_rate_limit` (src/twitter.rs lines 84-106) for one
actor: `entry.or_insert` creates a fresh record `⟨0, now⟩` when the actor is
unseen, then the window reset runs, then the check-and-increment.  Returns
the admission verdict and the stored record after the call. -/
def check_rate_limit (now : Nat) (entry : Option RateLimit) : Bool × RateLimit :=
  rlConsume (rlReset now (entry.getD ⟨0, now⟩))

/-- A sequence of `check_rate_limit` calls for a single actor at the given
times, threading the stored record; returns each call time paired with its
verdict, and the final record. -/
def runCalls : List Nat → Option RateLimit → List (Nat × Bool) × Option RateLimit
  | [], s => ([], s)
  | t :: ts, s =>
    let r := check_rate_limit t s
    let rest := runCalls ts (some r.2)
    ((t, r.1) :: rest.1, rest.2)

/-- Number of admitted calls whose time falls in the half-open 24-hour
interval starting at `lo`. -/
def admittedIn (lo : Nat) : List (Nat × Bool) → Nat
  | [] => 0
  | (t, b) :: rest =>
    (if lo ≤ t ∧ t < lo + RATE_LIMIT_SECS ∧ b = true then 1 else 0) + admittedIn lo rest

/-- Number of admitted calls in a run. -/
def countTrue (l : List (Nat × Bool)) : Nat := l.countP (fun p => p.2)

end TwitterHandler

/-! ## TTL cache (src/utils.rs lines 5-62) -/

/-- `CACHE_TIMEOUT_SECS` from src/utils.rs line 5 (24 hours). -/
def CACHE_TIMEOUT_SECS : Nat := 86400

/-- `struct CacheEntry` from src/utils.rs: a value plus its insertion time. -/
structure CacheEntry where
  data : String
  timestamp : Nat
deriving DecidableEq, Repr

/-- The `HashMap<String, CacheEntry>` inside `CacheManager`, as a finite-support
lookup function. -/
abbrev Cache := String → Option CacheEntry

namespace CacheManager

/-- `CacheManager::is_entry_valid` (src/utils.rs lines 52-57): an entry is
valid when its timestamp is not in the future (`SystemTime::elapsed` errors
there and `unwrap_or(false)` treats the entry as invalid) and strictly less
than the TTL has elapsed. -/
def is_entry_valid (now : Nat) (entry : CacheEntry) : Bool :=
  decide (entry.timestamp ≤ now) && decide (now - entry.timestamp < CACHE_TIMEOUT_SECS)

/-- `CacheManager::cleanup` (src/utils.rs lines 59-61): retain only the valid
entries. -/
def cleanup (now : Nat) (c : Cache) : Cache :=
  fun k =>
    match c k with
    | some entry => if is_entry_valid now entry then some entry else none
    | none => none

/-- `CacheManager::set` (src/utils.rs lines 24-33): insert the entry with the
current time as timestamp, then sweep expired entries. -/
def set (c : Cache) (key : String) (data : String) (now : Nat) : Cache :=
  cleanup now (fun k => if k = key then some ⟨data, now⟩ else c k)

/-- `CacheManager::get` (src/utils.rs lines 35-46): sweep expired entries,
then look the key up; a still-invalid entry would be removed and reported
absent (dead after the sweep, kept for faithfulness).  Returns the result and
the cache state after the call. -/
def get (c : Cache) (key : String) (now : Nat) : Option String × Cache :=
  let c2 := cleanup now c
  match c2 key with
  | some entry =>
    if is_entry_valid now entry then (some entry.data, c2)
    else (none, fun k => if k = key then none else c2 k)
  | none => (none, c2)

/-- `CacheManager::exists` (src/utils.rs lines 48-50): takes `&self` — it
reports raw presence of the key with no expiry check and no mutation of the
cache. (`exists` is a reserved word in Lean, hence the name.) -/
def existsKey (c : Cache) (key : String) : Bool :=
  (c key).isSome

end CacheManager

/-! ## Mention filter (src/twitter.rs lines 13-21 and 65-82) -/

/-- `struct TwitterMention` from src/twitter.rs (the timestamp field is
unused by the embedded operations and omitted). The text is kept as a
character list because the filter works character-wise on it. -/
structure TwitterMention where
  tweet_id : String
  user_id : String
  username : String
  avatar_url : String
  text : List Char
deriving DecidableEq, Repr

/-- Does the list start with the given sequence (`<[u8]>::starts_with`,
`str` matching)? -/
def startsWithSeq {α : Type} [DecidableEq α] : List α → List α → Bool
  | [], _ => true
  | _ :: _, [] => false
  | a :: as, b :: bs => a = b && startsWithSeq as bs

/-- Does the list contain the given sequence as a contiguous subsequence
(Rust `str::contains` on the decoded characters)? -/
def containsSeq {α : Type} [DecidableEq α] (needle : List α) : List α → Bool
  | [] => startsWithSeq needle []
  | a :: rest => startsWithSeq needle (a :: rest) || containsSeq needle rest

/-- Does the list end with the given sequence (Rust `str::ends_with`)? -/
def endsWithSeq {α : Type} [DecidableEq α] (tail hay : List α) : Bool :=
  startsWithSeq tail.reverse hay.reverse

namespace TwitterHandler

/-- The activation phrase from src/twitter.rs line 72. -/
def activationPhrase : List Char := "draw for my avatar".toList

/-- `mention.text.to_lowercase().contains("draw for my avatar")` from
src/twitter.rs line 72, with ASCII lowering (the phrase is ASCII). -/
def hasPhrase (text : List Char) : Bool :=
  containsSeq activationPhrase (text.map Char.toLower)

/-- The `rate_limits` table of `TwitterHandler`, per-actor records. -/
abbrev RLMap := String → Option RateLimit

/-- Store an actor's record back into the table (the `entry` API of the
`HashMap` always leaves the looked-up record in the map). -/
def updateRL (rl : RLMap) (user : String) (r : RateLimit) : RLMap :=
  fun u => if u = user then some r else rl u

/-- `TwitterHandler::filter_valid_mentions` (src/twitter.rs lines 65-82),
threading the rate-limit table.  Each `check_rate_limit` call reads the
clock; `clock i` gives the time of the i-th rate-limit call of the batch,
and the index advances only when the limiter is actually consulted.
A mention lacking the activation phrase is skipped (`continue`) before the
rate limiter is reached. -/
def filterAux (clock : Nat → Nat) :
    List TwitterMention → Nat → RLMap → List TwitterMention × RLMap
  | [], _, rl => ([], rl)
  | m :: ms, i, rl =>
    if hasPhrase m.text then
      let r := check_rate_limit (clock i) (rl m.user_id)
      let rest := filterAux clock ms (i + 1) (updateRL rl m.user_id r.2)
      (if r.1 then m :: rest.1 else rest.1, rest.2)
    else
      filterAux clock ms i rl

/-- Entry point of the filter over a raw batch. -/
def filter_valid_mentions (clock : Nat → Nat) (mentions : List TwitterMention)
    (rl : RLMap) : List TwitterMention × RLMap :=
  filterAux clock mentions 0 rl

end TwitterHandler

/-! ## Per-mention pipeline (src/main.rs lines 102-131) -/

/-- `enum AppError` from src/main.rs, restricted to the variants the pipeline
stages can surface (each wraps the collaborator message). -/
inductive AppError where
  | twitterError (msg : String)
  | visionError (msg : String)
  | imageError (msg : String)
  | storyError (msg : String)
deriving DecidableEq, Repr

/-- Observable collaborator calls made by one `handle_mention` task, in
order: the vision analysis, the image generation, the story generation and
the reply post (`TwitterHandler::send_reply` with the mention, image bytes
and story). -/
inductive Event where
  | analyzeCall (url : String)
  | illustrateCall (keywords : List String)
  | narrateCall (keywords : List String)
  | postCall (tweet_id : String) (image : List Nat) (story : String)
deriving DecidableEq, Repr

/-- Number of reply posts in a trace. -/
def countPostEvents : List Event → Nat
  | [] => 0
  | Event.postCall _ _ _ :: rest => 1 + countPostEvents rest
  | _ :: rest => countPostEvents rest

/-- The four collaborators `handle_mention` drives, as opaque fallible
functions: `VisionHandler::analyze_image`, `ImageGenerator::generate_cat_image`,
`StoryGenerator::generate_story` and `TwitterHandler::send_reply`. -/
structure PipelineEnv where
  analyze_image : String → Except AppError (List String)
  generate_cat_image : List String → Except AppError (List Nat)
  generate_story : List String → Except AppError String
  send_reply : String → List Nat → String → Except AppError Unit

/-- The dedup key of src/main.rs line 113: `format!("mention_{}", tweet_id)`. -/
def mentionKey (m : TwitterMention) : String :=
  "mention_" ++ m.tweet_id

/-- `Clara::handle_mention` (src/main.rs lines 102-131): check the dedup
cache with `exists` and short-circuit on a hit; otherwise run analyze →
illustrate → narrate → post-reply strictly in sequence, returning the first
error; on full success write the `"completed"` marker under the dedup key.
Returns the task result, the cache after the task, and the trace of
collaborator calls made. -/
def handle_mention (env : PipelineEnv) (m : TwitterMention) (cache : Cache)
    (now : Nat) : Except AppError Unit × Cache × List Event :=
  let key := mentionKey m
  if CacheManager.existsKey cache key then
    (Except.ok (), cache, [])
  else
    match env.analyze_image m.avatar_url with
    | Except.error e => (Except.error e, cache, [Event.analyzeCall m.avatar_url])
    | Except.ok keywords =>
      match env.generate_cat_image keywords with
      | Except.error e =>
        (Except.error e, cache,
         [Event.analyzeCall m.avatar_url, Event.illustrateCall keywords])
      | Except.ok image_data =>
        match env.generate_story keywords with
        | Except.error e =>
          (Except.error e, cache,
           [Event.analyzeCall m.avatar_url, Event.illustrateCall keywords,
            Event.narrateCall keywords])
        | Except.ok story =>
          match env.send_reply m.tweet_id image_data story with
          | Except.error e =>
            (Except.error e, cache,
             [Event.analyzeCall m.avatar_url, Event.illustrateCall keywords,
              Event.narrateCall keywords,
              Event.postCall m.tweet_id image_data story])
          | Except.ok _ =>
            (Except.ok (), CacheManager.set cache key "completed" now,
             [Event.analyzeCall m.avatar_url, Event.illustrateCall keywords,
              Event.narrateCall keywords,
              Event.postCall m.tweet_id image_data story])

/-- Eight PNG magic-header bytes, a minimal stand-in for valid PNG data. -/
def pngBytes : List Nat := [0x89, 0x50, 0x4E, 0x47, 0x0D, 0x0A, 0x1A, 0x0A]

/-- The end-to-end scenario collaborators: analyzer yields
`["orange", "tabby"]`, illustrator yields PNG bytes, narrator yields
`"A short tale."`, and posting succeeds. -/
def e2eEnv : PipelineEnv where
  analyze_image := fun _ => Except.ok ["orange", "tabby"]
  generate_cat_image := fun _ => Except.ok pngBytes
  generate_story := fun _ => Except.ok "A short tale."
  send_reply := fun _ _ _ => Except.ok ()

/-- The end-to-end scenario mention t1 from the spec. -/
def mentionT1 : TwitterMention :=
  ⟨"t1", "alice", "alice", "http://x/a.png", "please draw for my avatar".toList⟩

/-! ## Story formatting (src/story.rs lines 6 and 73-92) -/

/-- `MAX_STORY_LENGTH` from src/story.rs line 6. -/
def MAX_STORY_LENGTH : Nat := 280

/-- `enum StoryError` from src/story.rs. -/
inductive StoryError where
  | noStoryGenerated
  | invalidStory
  | apiError (msg : String)
deriving DecidableEq, Repr

namespace StoryGenerator

/-- Rust `str::trim` on the character list: drop whitespace from both
ends (`Char.isWhitespace` models `char::is_whitespace`). -/
def trimChars (s : List Char) : List Char :=
  ((s.dropWhile fun c => c.isWhitespace).reverse.dropWhile fun c =>
    c.isWhitespace).reverse

/-- `processed.replace(|c| c == at-sign || c == hash, "")` from src/story.rs
line 77: delete every such character. -/
def stripAtHash (s : List Char) : List Char :=
  s.filter fun c => !(c == '@' || c == '#')

/-- Rust `String::len` of the character list: total UTF-8 byte length. -/
def utf8Len (s : List Char) : Nat :=
  (s.map Char.utf8Size).sum

/-- `StoryGenerator::format_story` (src/story.rs lines 73-92): trim, delete
mention/hashtag sigils, truncate to `MAX_STORY_LENGTH - 3` characters plus
an ellipsis when the byte length exceeds `MAX_STORY_LENGTH` (Rust `len()`
counts bytes, `chars().take` counts characters), and reject an empty
result. -/
def format_story (story : List Char) : Except StoryError (List Char) :=
  let processed := stripAtHash (trimChars story)
  let processed :=
    if MAX_STORY_LENGTH < utf8Len processed then
      processed.take (MAX_STORY_LENGTH - 3) ++ "...".toList
    else processed
  if processed = [] then Except.error StoryError.invalidStory
  else Except.ok processed

end StoryGenerator

/-! ## Image generation (src/image.rs lines 42-83 and 107-123) -/

/-- `enum ImageError` from src/image.rs. -/
inductive ImageError where
  | noImageGenerated
  | invalidImageFormat
  | apiError (msg : String)
  | processingError (msg : String)
deriving DecidableEq, Repr

namespace ImageGenerator

/-- JPEG magic bytes checked at src/image.rs line 113. -/
def jpegMagic : List Nat := [0xFF, 0xD8, 0xFF]

/-- PNG magic bytes checked at src/image.rs line 118. -/
def pngMagic : List Nat := [0x89, 0x50, 0x4E, 0x47]

/-- `ImageGenerator::validate_image` (src/image.rs lines 107-123): reject
empty data, accept data starting with JPEG or PNG magic bytes, reject the
rest.  The Rust signature is `Result<bool, ImageError>` but no branch
errors. -/
def validate_image (image_data : List Nat) : Except ImageError Bool :=
  if image_data = [] then Except.ok false
  else if startsWithSeq jpegMagic image_data then Except.ok true
  else if startsWithSeq pngMagic image_data then Except.ok true
  else Except.ok false

/-- `ImageGenerator::generate_cat_image` (src/image.rs lines 42-83) with the
model completion and the base64 decoder as opaque collaborators.  The
serde round trip of `ImageGenerationResponse` (serialize then parse the same
value, take the single element of `data`) is the identity on the wrapped
completion text, so `process_response` reduces to base64-decoding it.  The
decoded bytes pass `validate_image` or the call fails with
`InvalidImageFormat`. -/
def generate_cat_image (completion : Except String String)
    (b64decode : String → Except String (List Nat)) : Except ImageError (List Nat) :=
  match completion with
  | Except.error e => Except.error (ImageError.apiError e)
  | Except.ok text =>
    match b64decode text with
    | Except.error e => Except.error (ImageError.processingError e)
    | Except.ok image_data =>
      match validate_image image_data with
      | Except.error e => Except.error e
      | Except.ok false => Except.error ImageError.invalidImageFormat
      | Except.ok true => Except.ok image_data

end ImageGenerator

end Clara

namespace Clara

namespace TwitterHandler

/-- C1: within the current window (no reset fires), a call with count already
at `MAX_REQUESTS_PER_DAY` returns false and leaves the record unchanged; a
call with count below the maximum increments it and returns true; the stored
count never exceeds 3; and the very first call for an unseen actor returns
true with count 1. -/
theorem check_rate_limit_spec (c lr now : Nat) :
    (now - lr < RATE_LIMIT_SECS → MAX_REQUESTS_PER_DAY ≤ c →
      check_rate_limit now (some ⟨c, lr⟩) = (false, ⟨c, lr⟩))
    ∧ (now - lr < RATE_LIMIT_SECS → c < MAX_REQUESTS_PER_DAY →
      check_rate_limit now (some ⟨c, lr⟩) = (true, ⟨c + 1, lr⟩))
    ∧ (c ≤ MAX_REQUESTS_PER_DAY →
      (check_rate_limit now (some ⟨c, lr⟩)).2.count ≤ MAX_REQUESTS_PER_DAY)
    ∧ check_rate_limit now none = (true, ⟨1, now⟩) := by
  refine ⟨?_, ?_, ?_, ?_⟩
  · intro hwin hc
    simp [check_rate_limit, rlReset, rlConsume, Nat.not_le.mpr hwin, hc]
  · intro hwin hc
    simp [check_rate_limit, rlReset, rlConsume, Nat.not_le.mpr hwin, Nat.not_le.mpr hc]
  · intro hc
    by_cases hw : RATE_LIMIT_SECS ≤ now - lr
    · simp [check_rate_limit, rlReset, rlConsume, hw, MAX_REQUESTS_PER_DAY]
    · by_cases hcc : MAX_REQUESTS_PER_DAY ≤ c
      · simp only [check_rate_limit, rlReset, rlConsume, Option.getD, if_neg hw, if_pos hcc]
        exact hc
      · simp only [check_rate_limit, rlReset, rlConsume, Option.getD, if_neg hw, if_neg hcc]
        simp only [MAX_REQUESTS_PER_DAY] at hcc ⊢
        omega
  · simp [check_rate_limit, rlReset, rlConsume, MAX_REQUESTS_PER_DAY]

/-- Witness for `check_rate_limit_spec` at concrete inputs. -/
theorem check_rate_limit_spec_witness :
    check_rate_limit 10 (some ⟨3, 0⟩) = (false, ⟨3, 0⟩)
    ∧ check_rate_limit 10 (some ⟨2, 0⟩) = (true, ⟨3, 0⟩) :=
  ⟨(check_rate_limit_spec 3 0 10).1 (by decide) (by decide),
   (check_rate_limit_spec 2 0 10).2.1 (by decide) (by decide)⟩

/-- C8: when strictly more than the window length elapsed since the window
start, the reset step sets the record to count 0 with window start `now`,
and the whole call is admitted, leaving count 1 and window start `now`,
no matter how exhausted the prior window was. -/
theorem window_reset_admits (c lr now : Nat) (h : RATE_LIMIT_SECS < now - lr) :
    rlReset now ⟨c, lr⟩ = ⟨0, now⟩
    ∧ check_rate_limit now (some ⟨c, lr⟩) = (true, ⟨1, now⟩) := by
  have hle : RATE_LIMIT_SECS ≤ now - lr := Nat.le_of_lt h
  constructor
  · simp [rlReset, hle]
  · simp [check_rate_limit, rlReset, rlConsume, hle, MAX_REQUESTS_PER_DAY]

/-- Witness for `window_reset_admits`: an exhausted record whose window
started 100000 seconds ago is reset and admitted. -/
theorem window_reset_admits_witness :
    rlReset 100000 ⟨3, 0⟩ = ⟨0, 100000⟩
    ∧ check_rate_limit 100000 (some ⟨3, 0⟩) = (true, ⟨1, 100000⟩) :=
  window_reset_admits 3 0 100000 (by decide)

/-- C5 fails on the code: the limiter uses a fixed window with lazy reset,
so a rolling 24-hour interval that straddles a reset can see more than 3
admitted calls.  A fresh actor calling at times 0, 86399, 86399, 86400,
86400, 86400 is admitted all six times, and the 24-hour interval starting
at second 86399 contains five admitted calls. -/
theorem rolling_window_counterexample :
    (runCalls [0, 86399, 86399, 86400, 86400, 86400] none).1
      = [(0, true), (86399, true), (86399, true),
         (86400, true), (86400, true), (86400, true)]
    ∧ admittedIn 86399 (runCalls [0, 86399, 86399, 86400, 86400, 86400] none).1 = 5
    ∧ 3 < admittedIn 86399 (runCalls [0, 86399, 86399, 86400, 86400, 86400] none).1 := by
  refine ⟨by decide, by decide, by decide⟩

/-- C5 amended: within a single fixed window of the limiter — every call
happening less than the window length after the record's window start, so
that no reset fires — the number of admitted calls plus the starting count
never exceeds `MAX_REQUESTS_PER_DAY`; in particular a fresh window admits at
most 3 calls. -/
theorem fixed_window_bound (times : List Nat) (lr c : Nat)
    (hc : c ≤ MAX_REQUESTS_PER_DAY)
    (hw : ∀ t ∈ times, t - lr < RATE_LIMIT_SECS) :
    countTrue (runCalls times (some ⟨c, lr⟩)).1 + c ≤ MAX_REQUESTS_PER_DAY := by
  induction times generalizing c with
  | nil => simpa [runCalls, countTrue] using hc
  | cons t ts ih =>
    have hwt : t - lr < RATE_LIMIT_SECS := hw t (List.mem_cons_self t ts)
    have hwts : ∀ u ∈ ts, u - lr < RATE_LIMIT_SECS :=
      fun u hu => hw u (List.mem_cons_of_mem t hu)
    by_cases hcc : MAX_REQUESTS_PER_DAY ≤ c
    · have hstep : check_rate_limit t (some ⟨c, lr⟩) = (false, ⟨c, lr⟩) := by
        simp [check_rate_limit, rlReset, rlConsume, Nat.not_le.mpr hwt, hcc]
      have := ih c hc hwts
      simp only [runCalls, hstep, countTrue, List.countP_cons] at *
      simpa [countTrue] using this
    · have hstep : check_rate_limit t (some ⟨c, lr⟩) = (true, ⟨c + 1, lr⟩) := by
        simp [check_rate_limit, rlReset, rlConsume, Nat.not_le.mpr hwt, hcc]
      have := ih (c + 1) (Nat.succ_le_of_lt (Nat.lt_of_not_le hcc)) hwts
      simp only [runCalls, hstep, countTrue, List.countP_cons, if_true, decide_eq_true_eq] at *
      omega

/-- Witness for `fixed_window_bound`: four calls inside one fresh window
admit at most three. -/
theorem fixed_window_bound_witness :
    countTrue (runCalls [0, 1, 2, 3] (some ⟨0, 0⟩)).1 + 0 ≤ MAX_REQUESTS_PER_DAY :=
  fixed_window_bound [0, 1, 2, 3] 0 0 (by decide) (by decide)

/-- Helper: the filter output is a sublist of (hence in the original relative
order of) the input batch. -/
theorem filterAux_sublist (clock : Nat → Nat) (ms : List TwitterMention) :
    ∀ (i : Nat) (rl : RLMap), ((filterAux clock ms i rl).1).Sublist ms := by
  induction ms with
  | nil => intro i rl; simp [filterAux]
  | cons m ms ih =>
    intro i rl
    by_cases h : hasPhrase m.text
    · simp only [filterAux, if_pos h]
      by_cases hb : (check_rate_limit (clock i) (rl m.user_id)).1
      · simpa [hb] using (ih (i + 1) (updateRL rl m.user_id
          (check_rate_limit (clock i) (rl m.user_id)).2)).cons₂ m
      · simpa [hb] using (ih (i + 1) (updateRL rl m.user_id
          (check_rate_limit (clock i) (rl m.user_id)).2)).cons m
    · simp only [filterAux, if_neg h]
      exact (ih i rl).cons m

/-- Helper: every mention kept by the filter contains the activation
phrase. -/
theorem filterAux_phrase (clock : Nat → Nat) (ms : List TwitterMention) :
    ∀ (i : Nat) (rl : RLMap) (x : TwitterMention),
      x ∈ (filterAux clock ms i rl).1 → hasPhrase x.text = true := by
  induction ms with
  | nil => intro i rl x hx; simp [filterAux] at hx
  | cons m ms ih =>
    intro i rl x hx
    by_cases h : hasPhrase m.text
    · simp only [filterAux, if_pos h] at hx
      by_cases hb : (check_rate_limit (clock i) (rl m.user_id)).1
      · simp only [hb, if_pos, List.mem_cons] at hx
        rcases hx with rfl | hx
        · exact h
        · exact ih _ _ x hx
      · simp only [hb] at hx
        exact ih _ _ x (by simpa using hx)
    · simp only [filterAux, if_neg h] at hx
      exact ih i rl x hx

/-- C6: the filter keeps the input order (output is a sublist of the batch),
admits only mentions containing the activation phrase case-insensitively,
skips a phrase-less mention without consulting the rate limiter (the table
and the clock position are untouched), and for a phrase-carrying mention
includes it exactly when `check_rate_limit` admits its actor, threading the
updated table. -/
theorem filter_valid_mentions_spec (clock : Nat → Nat) (i : Nat) (rl : RLMap)
    (m : TwitterMention) (ms : List TwitterMention)
    (hm : hasPhrase m.text = false) :
    ((filterAux clock ms i rl).1.Sublist ms)
    ∧ (∀ x ∈ (filterAux clock ms i rl).1, hasPhrase x.text = true)
    ∧ filterAux clock (m :: ms) i rl = filterAux clock ms i rl
    ∧ (∀ m2 : TwitterMention, hasPhrase m2.text = true →
        (filterAux clock (m2 :: ms) i rl).1
          = (if (check_rate_limit (clock i) (rl m2.user_id)).1 then [m2] else [])
            ++ (filterAux clock ms (i + 1)
                (updateRL rl m2.user_id
                  (check_rate_limit (clock i) (rl m2.user_id)).2)).1) := by
  refine ⟨filterAux_sublist clock ms i rl, filterAux_phrase clock ms i rl, ?_, ?_⟩
  · simp [filterAux, hm]
  · intro m2 h2
    simp only [filterAux, if_pos h2]
    by_cases hb : (check_rate_limit (clock i) (rl m2.user_id)).1
    · simp [hb]
    · simp [hb]

/-- Witness for `filter_valid_mentions_spec`: a batch holding only the
mention with text "nice pic!" filters exactly like the empty batch — the
mention is dropped and the rate-limit table is untouched. -/
theorem filter_valid_mentions_spec_witness :
    filterAux (fun _ => 0) [⟨"t9", "bob", "bob", "u", "nice pic!".toList⟩] 0
        (fun _ => none)
      = filterAux (fun _ => 0) [] 0 (fun _ => none) :=
  (filter_valid_mentions_spec (fun _ => 0) 0 (fun _ => none)
    ⟨"t9", "bob", "bob", "u", "nice pic!".toList⟩ [] (by decide)).2.2.1

end TwitterHandler

namespace CacheManager

/-- C4: setting a key and reading it back while strictly less than the TTL
elapsed returns the stored value; and a key whose entry is older than the
TTL reads back as absent, with the entry removed from the cache state the
call returns. -/
theorem set_get_ttl (c : Cache) (k v : String) (t1 t2 : Nat) :
    (t1 ≤ t2 → t2 - t1 < CACHE_TIMEOUT_SECS →
      (get (set c k v t1) k t2).1 = some v)
    ∧ (∀ ts w, c k = some ⟨w, ts⟩ → ts + CACHE_TIMEOUT_SECS < t2 →
      (get c k t2).1 = none ∧ (get c k t2).2 k = none) := by
  constructor
  · intro h1 h2
    have hv1 : is_entry_valid t1 ⟨v, t1⟩ = true := by
      simp [is_entry_valid, CACHE_TIMEOUT_SECS]
    have hv2 : is_entry_valid t2 ⟨v, t1⟩ = true := by
      simp only [is_entry_valid, Bool.and_eq_true, decide_eq_true_eq]
      exact ⟨h1, h2⟩
    simp [get, set, cleanup, hv1, hv2]
  · intro ts w hk hts
    have hv : is_entry_valid t2 ⟨w, ts⟩ = false := by
      simp only [is_entry_valid, Bool.and_eq_false_iff, decide_eq_false_iff_not]
      right
      omega
    constructor
    · simp [get, cleanup, hk, hv]
    · simp [get, cleanup, hk, hv]

/-- Witness for `set_get_ttl`: a fresh set is read back, and an entry
inserted at time 0 is gone when read at time 100000. -/
theorem set_get_ttl_witness :
    (get (set (fun _ => none) "k" "v" 0) "k" 10).1 = some "v"
    ∧ (get (fun x => if x = "k" then some ⟨"v", 0⟩ else none) "k" 100000).1 = none
    ∧ (get (fun x => if x = "k" then some ⟨"v", 0⟩ else none) "k" 100000).2 "k" = none := by
  refine ⟨(set_get_ttl (fun _ => none) "k" "v" 0 10).1 (by decide) (by decide), ?_, ?_⟩
  · exact ((set_get_ttl (fun x => if x = "k" then some ⟨"v", 0⟩ else none) "k" "v" 0
      100000).2 0 "v" (by simp) (by decide)).1
  · exact ((set_get_ttl (fun x => if x = "k" then some ⟨"v", 0⟩ else none) "k" "v" 0
      100000).2 0 "v" (by simp) (by decide)).2

/-- C7: `exists` inspects the raw table without sweeping, so an entry whose
age exceeds the TTL but has not been swept yet is still reported present,
even though `get` on the same state reports it absent and removes it.  The
embedding types `existsKey : Cache → String → Bool` without a successor
state, mirroring the `&self` receiver: the call cannot modify the cache. -/
theorem existsKey_expired_entry (c : Cache) (k v : String) (ts now : Nat)
    (hk : c k = some ⟨v, ts⟩) (hage : ts + CACHE_TIMEOUT_SECS < now) :
    existsKey c k = true
    ∧ (get c k now).1 = none
    ∧ (get c k now).2 k = none := by
  have hv : is_entry_valid now ⟨v, ts⟩ = false := by
    simp only [is_entry_valid, Bool.and_eq_false_iff, decide_eq_false_iff_not]
    right
    omega
  refine ⟨by simp [existsKey, hk], ?_, ?_⟩
  · simp [get, cleanup, hk, hv]
  · simp [get, cleanup, hk, hv]

/-- Witness for `existsKey_expired_entry` at a concrete expired state. -/
theorem existsKey_expired_entry_witness :
    existsKey (fun x => if x = "k" then some ⟨"done", 3⟩ else none) "k" = true
    ∧ (get (fun x => if x = "k" then some ⟨"done", 3⟩ else none) "k" 200000).1 = none
    ∧ (get (fun x => if x = "k" then some ⟨"done", 3⟩ else none) "k" 200000).2 "k" = none :=
  existsKey_expired_entry (fun x => if x = "k" then some ⟨"done", 3⟩ else none)
    "k" "done" 3 200000 (by simp) (by decide)

end CacheManager

/-- C2: on a dedup-cache miss, a failure of any of the four stages makes
`handle_mention` return exactly that error with the cache unchanged (no
partial write); the completion marker can be present afterwards only when
all four stages succeeded; and on full success the marker is written under
the dedup key. -/
theorem handle_mention_error_frame (env : PipelineEnv) (m : TwitterMention)
    (cache : Cache) (now : Nat)
    (hne : CacheManager.existsKey cache (mentionKey m) = false) :
    (∀ e, env.analyze_image m.avatar_url = Except.error e →
        handle_mention env m cache now
          = (Except.error e, cache, [Event.analyzeCall m.avatar_url]))
    ∧ (∀ kws e, env.analyze_image m.avatar_url = Except.ok kws →
        env.generate_cat_image kws = Except.error e →
        handle_mention env m cache now
          = (Except.error e, cache,
             [Event.analyzeCall m.avatar_url, Event.illustrateCall kws]))
    ∧ (∀ kws img e, env.analyze_image m.avatar_url = Except.ok kws →
        env.generate_cat_image kws = Except.ok img →
        env.generate_story kws = Except.error e →
        handle_mention env m cache now
          = (Except.error e, cache,
             [Event.analyzeCall m.avatar_url, Event.illustrateCall kws,
              Event.narrateCall kws]))
    ∧ (∀ kws img st e, env.analyze_image m.avatar_url = Except.ok kws →
        env.generate_cat_image kws = Except.ok img →
        env.generate_story kws = Except.ok st →
        env.send_reply m.tweet_id img st = Except.error e →
        handle_mention env m cache now
          = (Except.error e, cache,
             [Event.analyzeCall m.avatar_url, Event.illustrateCall kws,
              Event.narrateCall kws, Event.postCall m.tweet_id img st]))
    ∧ (CacheManager.existsKey (handle_mention env m cache now).2.1 (mentionKey m)
          = true →
        ∃ kws img st, env.analyze_image m.avatar_url = Except.ok kws
          ∧ env.generate_cat_image kws = Except.ok img
          ∧ env.generate_story kws = Except.ok st
          ∧ env.send_reply m.tweet_id img st = Except.ok ()
          ∧ (handle_mention env m cache now).1 = Except.ok ())
    ∧ (∀ kws img st, env.analyze_image m.avatar_url = Except.ok kws →
        env.generate_cat_image kws = Except.ok img →
        env.generate_story kws = Except.ok st →
        env.send_reply m.tweet_id img st = Except.ok () →
        handle_mention env m cache now
          = (Except.ok (), CacheManager.set cache (mentionKey m) "completed" now,
             [Event.analyzeCall m.avatar_url, Event.illustrateCall kws,
              Event.narrateCall kws, Event.postCall m.tweet_id img st])
          ∧ CacheManager.existsKey
              (CacheManager.set cache (mentionKey m) "completed" now)
              (mentionKey m) = true) := by
  refine ⟨?_, ?_, ?_, ?_, ?_, ?_⟩
  · intro e hA
    simp [handle_mention, hne, hA]
  · intro kws e hA hI
    simp [handle_mention, hne, hA, hI]
  · intro kws img e hA hI hN
    simp [handle_mention, hne, hA, hI, hN]
  · intro kws img st e hA hI hN hS
    simp [handle_mention, hne, hA, hI, hN, hS]
  · intro hmark
    cases hA : env.analyze_image m.avatar_url with
    | error e => simp [handle_mention, hne, hA] at hmark
    | ok kws =>
      cases hI : env.generate_cat_image kws with
      | error e => simp [handle_mention, hne, hA, hI] at hmark
      | ok img =>
        cases hN : env.generate_story kws with
        | error e => simp [handle_mention, hne, hA, hI, hN] at hmark
        | ok st =>
          cases hS : env.send_reply m.tweet_id img st with
          | error e => simp [handle_mention, hne, hA, hI, hN, hS] at hmark
          | ok u =>
            exact ⟨kws, img, st, rfl, hI, hN, by rw [hS],
              by simp [handle_mention, hne, hA, hI, hN, hS]⟩
  · intro kws img st hA hI hN hS
    constructor
    · simp [handle_mention, hne, hA, hI, hN, hS]
    · simp [CacheManager.existsKey, CacheManager.set, CacheManager.cleanup,
        CacheManager.is_entry_valid, CACHE_TIMEOUT_SECS]

/-- Witness for `handle_mention_error_frame`: a failing analyzer aborts the
task with its error, an empty cache and only the analyze call traced. -/
theorem handle_mention_error_frame_witness :
    handle_mention
        ⟨fun _ => Except.error (AppError.visionError "boom"),
         fun _ => Except.ok pngBytes,
         fun _ => Except.ok "s",
         fun _ _ _ => Except.ok ()⟩
        mentionT1 (fun _ => none) 0
      = (Except.error (AppError.visionError "boom"), (fun _ => none : Cache),
         [Event.analyzeCall mentionT1.avatar_url]) :=
  (handle_mention_error_frame
      ⟨fun _ => Except.error (AppError.visionError "boom"),
       fun _ => Except.ok pngBytes,
       fun _ => Except.ok "s",
       fun _ _ _ => Except.ok ()⟩
      mentionT1 (fun _ => none) 0 rfl).1 (AppError.visionError "boom") rfl

/-- C3 fails on the code in one detail: the dedup key is built with
`format!("mention_{}", tweet_id)` (src/main.rs line 113), so the successful
t1 run posts exactly one reply yet stores its completion marker under
"mention_t1" — there is no cache entry whose key is "mention:t1". -/
theorem mention_key_counterexample :
    countPostEvents (handle_mention e2eEnv mentionT1 (fun _ => none) 0).2.2 = 1
    ∧ (handle_mention e2eEnv mentionT1 (fun _ => none) 0).2.1 "mention:t1" = none
    ∧ (handle_mention e2eEnv mentionT1 (fun _ => none) 0).2.1 "mention_t1"
        = some ⟨"completed", 0⟩ :=
  ⟨rfl, rfl, rfl⟩

/-- C3 amended (dedup key "mention_t1"): the t1 scenario with succeeding
collaborators posts exactly one reply carrying "t1", the PNG bytes and
"A short tale.", stores one completion marker under "mention_t1", and a
second task for the same mention short-circuits on the cache hit with no
collaborator call and no second post. -/
theorem end_to_end_t1 :
    (handle_mention e2eEnv mentionT1 (fun _ => none) 0).1 = Except.ok ()
    ∧ (handle_mention e2eEnv mentionT1 (fun _ => none) 0).2.2
        = [Event.analyzeCall "http://x/a.png",
           Event.illustrateCall ["orange", "tabby"],
           Event.narrateCall ["orange", "tabby"],
           Event.postCall "t1" pngBytes "A short tale."]
    ∧ countPostEvents (handle_mention e2eEnv mentionT1 (fun _ => none) 0).2.2 = 1
    ∧ (handle_mention e2eEnv mentionT1 (fun _ => none) 0).2.1 "mention_t1"
        = some ⟨"completed", 0⟩
    ∧ (handle_mention e2eEnv mentionT1
        (handle_mention e2eEnv mentionT1 (fun _ => none) 0).2.1 5).1 = Except.ok ()
    ∧ (handle_mention e2eEnv mentionT1
        (handle_mention e2eEnv mentionT1 (fun _ => none) 0).2.1 5).2.2 = []
    ∧ (handle_mention e2eEnv mentionT1
        (handle_mention e2eEnv mentionT1 (fun _ => none) 0).2.1 5).2.1 "mention_t1"
        = some ⟨"completed", 0⟩ :=
  ⟨rfl, rfl, rfl, rfl, rfl, rfl, rfl⟩

namespace StoryGenerator

/-- Helper: a character list has at most as many characters as UTF-8
bytes. -/
theorem length_le_utf8Len (l : List Char) : l.length ≤ utf8Len l := by
  induction l with
  | nil => simp [utf8Len]
  | cons c t ih =>
    have := Char.utf8Size_pos c
    simp only [utf8Len, List.map_cons, List.sum_cons, List.length_cons] at *
    omega

set_option maxRecDepth 40000 in
/-- C9 fails on the code as stated: the truncation decision looks at the
text after trimming and deleting the at-sign and hash characters, not at
the raw input, so an over-long input can succeed untruncated and without a
trailing ellipsis.  The 300-character input made of one letter and 299
at-signs is formatted to the single letter. -/
theorem format_story_counterexample :
    ('a' :: List.replicate 299 '@').length = 300
    ∧ format_story ('a' :: List.replicate 299 '@') = Except.ok ['a']
    ∧ endsWithSeq "...".toList ['a'] = false :=
  ⟨by simp, rfl, rfl⟩

/-- C9 amended: whenever `format_story` succeeds, the result is non-empty
and holds at most 280 characters; and when the cleaned text (trimmed, with
at-signs and hashes deleted) exceeds 280 UTF-8 bytes, the result is its
first 277 characters followed by "...". -/
theorem format_story_spec (s out : List Char)
    (h : format_story s = Except.ok out) :
    out ≠ []
    ∧ out.length ≤ MAX_STORY_LENGTH
    ∧ (MAX_STORY_LENGTH < utf8Len (stripAtHash (trimChars s)) →
        out = (stripAtHash (trimChars s)).take (MAX_STORY_LENGTH - 3)
          ++ "...".toList) := by
  simp only [format_story] at h
  by_cases hlen : MAX_STORY_LENGTH < utf8Len (stripAtHash (trimChars s))
  · rw [if_pos hlen] at h
    have hne : (stripAtHash (trimChars s)).take (MAX_STORY_LENGTH - 3)
        ++ "...".toList ≠ [] := by
      simp
    rw [if_neg hne] at h
    simp only [Except.ok.injEq] at h
    subst h
    refine ⟨hne, ?_, fun _ => rfl⟩
    have h3 : ("...".toList).length = 3 := by decide
    have ht : ((stripAtHash (trimChars s)).take (MAX_STORY_LENGTH - 3)).length
        ≤ MAX_STORY_LENGTH - 3 := by
      simp [List.length_take]
    simp only [List.length_append, h3, MAX_STORY_LENGTH] at *
    omega
  · rw [if_neg hlen] at h
    by_cases hpe : stripAtHash (trimChars s) = []
    · rw [if_pos hpe] at h
      simp at h
    · rw [if_neg hpe] at h
      simp only [Except.ok.injEq] at h
      subst h
      refine ⟨hpe, ?_, fun hcon => absurd hcon hlen⟩
      have := length_le_utf8Len (stripAtHash (trimChars s))
      simp only [MAX_STORY_LENGTH, Nat.not_lt] at *
      omega

/-- Witness for `format_story_spec` on the one-letter story. -/
theorem format_story_spec_witness :
    (['x'] : List Char) ≠ []
    ∧ (['x'] : List Char).length ≤ MAX_STORY_LENGTH
    ∧ (MAX_STORY_LENGTH < utf8Len (stripAtHash (trimChars ['x'])) →
        (['x'] : List Char) = (stripAtHash (trimChars ['x'])).take
          (MAX_STORY_LENGTH - 3) ++ "...".toList) :=
  format_story_spec ['x'] ['x'] rfl

end StoryGenerator

namespace ImageGenerator

/-- C10: a successful `generate_cat_image` yields bytes starting with the
JPEG or the PNG magic — hence non-empty — and a successfully decoded
payload with neither magic makes the call fail with
`InvalidImageFormat`. -/
theorem generate_cat_image_magic (completion : Except String String)
    (b64decode : String → Except String (List Nat)) :
    (∀ data, generate_cat_image completion b64decode = Except.ok data →
        (startsWithSeq jpegMagic data = true ∨ startsWithSeq pngMagic data = true)
        ∧ data ≠ [])
    ∧ (∀ text payload, completion = Except.ok text →
        b64decode text = Except.ok payload →
        startsWithSeq jpegMagic payload = false →
        startsWithSeq pngMagic payload = false →
        generate_cat_image completion b64decode
          = Except.error ImageError.invalidImageFormat) := by
  constructor
  · intro data h
    cases completion with
    | error e => simp [generate_cat_image] at h
    | ok text =>
      cases hd : b64decode text with
      | error e => simp [generate_cat_image, hd] at h
      | ok payload =>
        by_cases hpe : payload = []
        · simp [generate_cat_image, hd, validate_image, hpe] at h
        · by_cases hj : startsWithSeq jpegMagic payload = true
          · have hdata : payload = data := by
              simpa [generate_cat_image, hd, validate_image, hpe, hj] using h
            subst hdata
            exact ⟨Or.inl hj, hpe⟩
          · by_cases hp2 : startsWithSeq pngMagic payload = true
            · have hdata : payload = data := by
                simpa [generate_cat_image, hd, validate_image, hpe, hj, hp2] using h
              subst hdata
              exact ⟨Or.inr hp2, hpe⟩
            · simp [generate_cat_image, hd, validate_image, hpe, hj, hp2] at h
  · intro text payload hc hd hj hp
    subst hc
    by_cases hpe : payload = []
    · simp [generate_cat_image, hd, validate_image, hpe]
    · simp [generate_cat_image, hd, validate_image, hpe, hj, hp]

/-- Witness for `generate_cat_image_magic`: a decoded payload without a
magic header is rejected. -/
theorem generate_cat_image_magic_witness :
    generate_cat_image (Except.ok "x") (fun _ => Except.ok [1, 2, 3])
      = Except.error ImageError.invalidImageFormat :=
  (generate_cat_image_magic (Except.ok "x") (fun _ => Except.ok [1, 2, 3])).2
    "x" [1, 2, 3] rfl rfl (by decide) (by decide)

end ImageGenerator

end Clara
